import Mathlib

/-!
Verification of the countdown clock web application.

The development shallowly embeds the logic of the repository:
the countdown computation of the Clock component, the seven-segment
digit table, the digit decomposition of renderGroup, the timer
lifecycle of the effect that drives the clock, the pulse timing, the
Christmas target computation of the App component and the
handleGenerate state transition. JavaScript numbers holding integral
millisecond counts are modelled as Int or Nat; Math.floor of an exact
nonnegative quotient is Nat division.
-/

namespace Xmas24

/-- Fields of the countdown display. Source: interface CountdownTime
in types.ts: four number fields days, hours, minutes, seconds. The
values produced by the clock are nonnegative integers, so Nat. -/
structure CountdownTime where
  days : Nat
  hours : Nat
  minutes : Nat
  seconds : Nat
deriving DecidableEq, Repr

/-- Source: calculateTimeLeft in the Clock component.
The JavaScript reads
  difference = targetDate - new Date();
  if difference <= 0 then all-zero else
  days = Math.floor(difference / 86400000),
  hours = Math.floor((difference / 3600000) % 24),
  minutes = Math.floor((difference / 60000) % 60),
  seconds = Math.floor((difference / 1000) % 60).
For a positive integer difference d and positive integer constant c,
Math.floor(d / c) is Nat division, and
Math.floor((d / c) % m) equals (d / c) % m in Nat arithmetic, because
floor of the fractional modulus drops exactly the fractional part of
d / c. Both instants are epoch milliseconds, Int. -/
def calculateTimeLeft (targetDate now : Int) : CountdownTime :=
  let difference : Int := targetDate - now
  if difference ≤ 0 then ⟨0, 0, 0, 0⟩
  else
    let d : Nat := difference.toNat
    { days := d / (1000 * 60 * 60 * 24)
      hours := d / (1000 * 60 * 60) % 24
      minutes := d / 1000 / 60 % 60
      seconds := d / 1000 % 60 }

/-- Total milliseconds reconstructed from the four display fields,
ignoring the sub-second remainder. -/
def reconstructMs (t : CountdownTime) : Nat :=
  (((t.days * 24 + t.hours) * 60 + t.minutes) * 60 + t.seconds) * 1000

/-- C1: with the target at or before the current instant the countdown
is all zero, and remains all zero at every later instant, so every
subsequent tick keeps rendering zeros and no field is ever negative. -/
theorem calculateTimeLeft_clamps_at_zero (T N : Int) (h : T ≤ N) :
    calculateTimeLeft T N = ⟨0, 0, 0, 0⟩ ∧
    ∀ N2 : Int, N ≤ N2 → calculateTimeLeft T N2 = ⟨0, 0, 0, 0⟩ := by
  constructor
  · simp only [calculateTimeLeft]
    rw [if_pos (by omega)]
  · intro N2 h2
    simp only [calculateTimeLeft]
    rw [if_pos (by omega)]

theorem calculateTimeLeft_clamps_at_zero_witness :
    (5 : Int) ≤ 5 ∧ (5 : Int) ≤ 7 ∧
    calculateTimeLeft 5 5 = ⟨0, 0, 0, 0⟩ ∧
    calculateTimeLeft 5 7 = ⟨0, 0, 0, 0⟩ :=
  ⟨by decide, by decide,
    (calculateTimeLeft_clamps_at_zero 5 5 (by decide)).1,
    (calculateTimeLeft_clamps_at_zero 5 5 (by decide)).2 7 (by decide)⟩

/-- C2: for a target strictly in the future, days is the difference in
whole days, hours is below 24, minutes and seconds are below 60, the
milliseconds reconstructed from the four fields never exceed the true
difference and are within one second of it, and a difference of
90061000 ms yields one day, one hour, one minute, one second. -/
theorem calculateTimeLeft_fields_correct (T N : Int) (h : N < T) :
    (calculateTimeLeft T N).days = (T - N).toNat / 86400000 ∧
    (calculateTimeLeft T N).hours < 24 ∧
    (calculateTimeLeft T N).minutes < 60 ∧
    (calculateTimeLeft T N).seconds < 60 ∧
    reconstructMs (calculateTimeLeft T N) ≤ (T - N).toNat ∧
    (T - N).toNat < reconstructMs (calculateTimeLeft T N) + 1000 ∧
    calculateTimeLeft (N + 90061000) N = ⟨1, 1, 1, 1⟩ := by
  have hd : ¬ (T - N ≤ 0) := by omega
  simp only [calculateTimeLeft, reconstructMs]
  rw [if_neg hd]
  have h90 : ¬ ((N + 90061000 : Int) - N ≤ 0) := by omega
  rw [if_neg h90]
  have e90 : ((N + 90061000 : Int) - N).toNat = 90061000 := by omega
  rw [e90]
  dsimp only
  refine ⟨by norm_num, ?_, ?_, ?_, ?_, ?_, by decide⟩ <;> omega

theorem calculateTimeLeft_fields_correct_witness :
    (0 : Int) < 90061000 ∧
    (calculateTimeLeft 90061000 0).days = 1 ∧
    reconstructMs (calculateTimeLeft 90061000 0) ≤ 90061000 :=
  ⟨by decide,
    by
      have h := (calculateTimeLeft_fields_correct 90061000 0 (by decide)).1
      simpa using h,
    (calculateTimeLeft_fields_correct 90061000 0 (by decide)).2.2.2.2.1⟩

/-- Names of the seven segments of a digit glyph. Source: the keys of
SEGMENT_PATHS in the Clock component. -/
inductive Seg where
  | a | b | c | d | e | f | g
deriving DecidableEq, Repr

/-- Source: the DIGIT_SEGMENTS record of the Clock component combined
with the lookup of SevenSegmentDigit, which is
  activeSegments = DIGIT_SEGMENTS[value] or else the empty list.
A record lookup with an integer key compares the key against the ten
entries 0 to 9; any other integer misses and yields the empty list. -/
def digitSegments (value : Int) : List Seg :=
  if value = 0 then [Seg.a, Seg.b, Seg.c, Seg.d, Seg.e, Seg.f]
  else if value = 1 then [Seg.b, Seg.c]
  else if value = 2 then [Seg.a, Seg.b, Seg.d, Seg.e, Seg.g]
  else if value = 3 then [Seg.a, Seg.b, Seg.c, Seg.d, Seg.g]
  else if value = 4 then [Seg.b, Seg.c, Seg.f, Seg.g]
  else if value = 5 then [Seg.a, Seg.c, Seg.d, Seg.f, Seg.g]
  else if value = 6 then [Seg.a, Seg.c, Seg.d, Seg.e, Seg.f, Seg.g]
  else if value = 7 then [Seg.a, Seg.b, Seg.c]
  else if value = 8 then [Seg.a, Seg.b, Seg.c, Seg.d, Seg.e, Seg.f, Seg.g]
  else if value = 9 then [Seg.a, Seg.b, Seg.c, Seg.d, Seg.f, Seg.g]
  else []

/-- C3: the digit to segment mapping is total over 0 to 9 with a fixed
nonempty active set for each digit, and every integer outside 0 to 9
yields the empty active set, so no segment renders active for it. -/
theorem digitSegments_total (value : Int) :
    (0 ≤ value ∧ value ≤ 9 → digitSegments value ≠ []) ∧
    (value < 0 ∨ 9 < value → digitSegments value = []) := by
  constructor
  · rintro ⟨h0, h9⟩
    interval_cases value <;> simp [digitSegments]
  · intro h
    have h0 : ¬ (value = 0) := by omega
    have h1 : ¬ (value = 1) := by omega
    have h2 : ¬ (value = 2) := by omega
    have h3 : ¬ (value = 3) := by omega
    have h4 : ¬ (value = 4) := by omega
    have h5 : ¬ (value = 5) := by omega
    have h6 : ¬ (value = 6) := by omega
    have h7 : ¬ (value = 7) := by omega
    have h8 : ¬ (value = 8) := by omega
    have h9 : ¬ (value = 9) := by omega
    simp [digitSegments, h0, h1, h2, h3, h4, h5, h6, h7, h8, h9]

theorem digitSegments_total_witness :
    ((0 : Int) ≤ 5 ∧ (5 : Int) ≤ 9 ∧ digitSegments 5 ≠ []) ∧
    ((12 : Int) > 9 ∧ digitSegments 12 = []) :=
  ⟨⟨by decide, by decide, (digitSegments_total 5).1 ⟨by decide, by decide⟩⟩,
    ⟨by decide, (digitSegments_total 12).2 (Or.inr (by decide))⟩⟩

/-- Models parseInt applied to one decimal digit character. -/
def charToDigit (c : Char) : Nat := c.toNat - 48

/-- Models String.padStart(2, the zero character): prepend zero
characters until the length is at least two. -/
def padStartTwo (s : List Char) : List Char :=
  List.replicate (2 - s.length) '0' ++ s

/-- Source: the first three lines of renderGroup in the Clock
component:
  s = value.toString().padStart(2, zero); d1 = parseInt(s[0]);
  d2 = parseInt(s[1]).
The decimal string of a Nat is Nat.repr. The result is the pair of
the two digits handed to the two SevenSegmentDigit children. -/
def renderGroupDigits (value : Nat) : Nat × Nat :=
  let s := padStartTwo (Nat.repr value).data
  (charToDigit (s.headD '0'), charToDigit ((s.drop 1).headD '0'))

/-- C4 counterexample: for the value 365 the tens digit is 6 and the
units digit is 5, but renderGroup extracts the first two characters of
the decimal string, rendering the pair 3 and 6. -/
theorem renderGroupDigits_365_not_tens_units :
    365 / 10 % 10 = 6 ∧ 365 % 10 = 5 ∧
    renderGroupDigits 365 = (3, 6) ∧ renderGroupDigits 365 ≠ (6, 5) := by
  refine ⟨by norm_num, by norm_num, ?_, ?_⟩ <;> decide

/-- C4 amended: for every field value below 100 the renderer yields
exactly the tens digit and the units digit, so in particular every
single digit value n renders as the pair 0 and n; values of three or
more decimal digits instead render the first two characters of the
decimal string. -/
theorem renderGroupDigits_tens_units (value : Nat) (h : value < 100) :
    renderGroupDigits value = (value / 10, value % 10) := by
  revert h
  revert value
  decide

theorem renderGroupDigits_tens_units_witness :
    7 < 100 ∧ renderGroupDigits 7 = (0, 7) :=
  ⟨by decide, renderGroupDigits_tens_units 7 (by decide)⟩

/-- Source: type ThemeMode in types.ts, the string union of the value
24 and the value ELF. -/
inductive ThemeMode where
  | mode24
  | elf
deriving DecidableEq, Repr

/-- Everything one SevenSegmentDigit element renders: the digit value
it was handed, its active segment set, and the theme dependent colors
and glow filter. Source: the body of SevenSegmentDigit. -/
structure RenderedDigit where
  value : Int
  activeSegments : List Seg
  activeColor : String
  pulseColor : String
  inactiveColor : String
  glowStyle : String
deriving DecidableEq, Repr

/-- Source: SevenSegmentDigit in the Clock component. The active
segment set is the DIGIT_SEGMENTS lookup with empty default; the
colors and the glow filter branch on whether the theme is 24. -/
def sevenSegmentDigit (value : Int) (pulse : Bool) (theme : ThemeMode) :
    RenderedDigit :=
  { value := value
    activeSegments := digitSegments value
    activeColor :=
      if theme = ThemeMode.mode24 then "fill-yellow-500" else "fill-red-600"
    pulseColor :=
      if theme = ThemeMode.mode24 then "fill-yellow-300" else "fill-red-400"
    inactiveColor :=
      if theme = ThemeMode.mode24 then "fill-yellow-900/10"
      else "fill-red-900/10"
    glowStyle :=
      if theme = ThemeMode.mode24 then
        if pulse then "drop-shadow(0 0 8px rgba(234,179,8,0.9))"
        else "drop-shadow(0 0 2px rgba(234,179,8,0.5))"
      else
        if pulse then "drop-shadow(0 0 8px rgba(220, 38, 38, 0.5))"
        else "drop-shadow(0 0 1px rgba(220, 38, 38, 0.2))" }

/-- One digit pair group with its unit label, as produced by
renderGroup in the Clock component. -/
structure RenderedGroup where
  digit1 : RenderedDigit
  digit2 : RenderedDigit
  label : String
deriving DecidableEq, Repr

/-- Source: renderGroup in the Clock component: pad the value to two
characters, parse the two digit characters, and render one
SevenSegmentDigit per digit plus the label. -/
def renderGroup (pulse : Bool) (theme : ThemeMode) (value : Nat)
    (label : String) : RenderedGroup :=
  let p := renderGroupDigits value
  { digit1 := sevenSegmentDigit (p.1 : Int) pulse theme
    digit2 := sevenSegmentDigit (p.2 : Int) pulse theme
    label := label }

/-- The full logical output of one render of the Clock component: the
computed countdown and the four labelled digit pair groups. Source:
the return expression of Clock. -/
structure RenderedClock where
  timeLeft : CountdownTime
  groups : List RenderedGroup
deriving DecidableEq, Repr

/-- Source: the Clock component. The countdown is recomputed from the
target and the current instant; the four groups are days, hours,
minutes and seconds with their labels. -/
def renderClock (targetDate now : Int) (pulse : Bool)
    (theme : ThemeMode) : RenderedClock :=
  let t := calculateTimeLeft targetDate now
  { timeLeft := t
    groups :=
      [renderGroup pulse theme t.days "Days",
        renderGroup pulse theme t.hours "Hours",
        renderGroup pulse theme t.minutes "Min",
        renderGroup pulse theme t.seconds "Sec"] }

/-- Logical projection of a rendered group: the two digit values and
the two active segment sets, without any color or typography. -/
def groupLogic (g : RenderedGroup) :
    (Int × List Seg) × (Int × List Seg) × String :=
  ((g.digit1.value, g.digit1.activeSegments),
    (g.digit2.value, g.digit2.activeSegments), g.label)

/-- C8: the theme is noninterfering with the clock logic: two renders
that differ only in the theme produce the same countdown duration, the
same digit values and the same active segment sets in every group. -/
theorem renderClock_theme_noninterference (targetDate now : Int)
    (pulse : Bool) (t1 t2 : ThemeMode) :
    (renderClock targetDate now pulse t1).timeLeft =
      (renderClock targetDate now pulse t2).timeLeft ∧
    (renderClock targetDate now pulse t1).groups.map groupLogic =
      (renderClock targetDate now pulse t2).groups.map groupLogic := by
  constructor
  · rfl
  · rfl

/-- The tick period of the interval timer in milliseconds. Source: the
second argument of setInterval in the Clock effect. -/
def tickPeriodMs : Nat := 1000

/-- The delay after which the pulse flag is cleared, in milliseconds.
Source: the second argument of setTimeout in the interval body. -/
def pulseClearDelayMs : Nat := 100

/-- Models the pulse flag as a function of the time elapsed since the
last tick: the interval body sets it true at the tick and the queued
setTimeout sets it false once pulseClearDelayMs has elapsed. -/
def pulseAt (msSinceTick : Nat) : Bool :=
  decide (msSinceTick < pulseClearDelayMs)

/-- C6: the pulse flag is set at each tick and cleared after a fixed
delay strictly shorter than the tick period, so at every instant from
the clear delay up to the next tick the flag is false again; it is
never true for a full tick period. -/
theorem pulse_shorter_than_tick :
    pulseAt 0 = true ∧ pulseClearDelayMs < tickPeriodMs ∧
    ∀ t : Nat, pulseClearDelayMs ≤ t → pulseAt t = false := by
  refine ⟨by decide, by decide, ?_⟩
  intro t ht
  simp only [pulseAt, decide_eq_false_iff_not, not_lt]
  exact ht

theorem pulse_shorter_than_tick_witness :
    pulseClearDelayMs ≤ 500 ∧ 500 < tickPeriodMs ∧ pulseAt 500 = false :=
  ⟨by decide, by decide, pulse_shorter_than_tick.2.2 500 (by decide)⟩

/-- Props of the Clock component. onTick is modelled by an identity
token: the App component defines handleTick as a fresh arrow function
on every render, so two different renders of App pass callbacks with
different identities. Source: interface ClockProps. -/
structure ClockProps where
  targetDate : Int
  onTickId : Nat
  theme : ThemeMode
deriving DecidableEq, Repr

/-- The dependency array of the Clock effect. Source: the literal
array [targetDate, onTick] closing the useEffect call; the theme is
not a dependency. -/
def effectDeps (p : ClockProps) : Int × Nat := (p.targetDate, p.onTickId)

/-- Events driving the Clock component lifecycle: a render with given
props (the effect re-runs exactly when the dependency array changed),
teardown of the component, and the browser firing an interval id. -/
inductive ClockEvent where
  | render (p : ClockProps)
  | unmount
  | fire (id : Nat)
deriving DecidableEq, Repr

/-- State of the timer subsystem: the interval ids currently installed
in the browser, the id captured by the pending effect cleanup, the
dependency array of the last effect run, a fresh id counter, the ids
already cancelled, and the number of onTick invocations so far. -/
structure ClockSys where
  installed : List Nat
  cleanupTimer : Option Nat
  deps : Option (Int × Nat)
  nextId : Nat
  cancelled : List Nat
  callbackCount : Nat
deriving DecidableEq, Repr

/-- Source: the cleanup function returned by the Clock effect, which
is clearInterval on the captured timer. -/
def clearTimer (s : ClockSys) : ClockSys :=
  match s.cleanupTimer with
  | none => s
  | some id =>
    { s with
      installed := s.installed.erase id
      cleanupTimer := none
      cancelled := id :: s.cancelled }

/-- Source: the body of the Clock effect, which calls setInterval and
captures the returned timer for the cleanup. -/
def installTimer (p : ClockProps) (s : ClockSys) : ClockSys :=
  { s with
    installed := s.nextId :: s.installed
    cleanupTimer := some s.nextId
    deps := some (effectDeps p)
    nextId := s.nextId + 1 }

/-- One lifecycle step. A render re-runs the effect exactly when the
dependency array changed, running the previous cleanup first; unmount
runs the cleanup; a fire invokes the callback only if the interval is
still installed. -/
def step (s : ClockSys) : ClockEvent → ClockSys
  | ClockEvent.render p =>
    if s.deps = some (effectDeps p) then s
    else installTimer p (clearTimer s)
  | ClockEvent.unmount =>
    let s1 := clearTimer s
    { s1 with deps := none }
  | ClockEvent.fire id =>
    if id ∈ s.installed then
      { s with callbackCount := s.callbackCount + 1 }
    else s

/-- The initial state: nothing installed, nothing cancelled. -/
def clockInit : ClockSys :=
  { installed := []
    cleanupTimer := none
    deps := none
    nextId := 0
    cancelled := []
    callbackCount := 0 }

/-- The state after a sequence of lifecycle events from the initial
state. -/
def runClock (events : List ClockEvent) : ClockSys :=
  events.foldl step clockInit

/-- The lifecycle invariant: the installed intervals are exactly the
one captured by the pending cleanup, every captured or cancelled id is
below the fresh counter, and no cancelled id is still installed. -/
def ClockInv (s : ClockSys) : Prop :=
  s.installed = s.cleanupTimer.toList ∧
  (∀ id : Nat, s.cleanupTimer = some id → id < s.nextId) ∧
  (∀ id : Nat, id ∈ s.cancelled → id < s.nextId) ∧
  (∀ id : Nat, id ∈ s.cancelled → id ∉ s.installed)

theorem clockInv_clearTimer (s : ClockSys) (h : ClockInv s) :
    ClockInv (clearTimer s) ∧ (clearTimer s).installed = [] ∧
    (clearTimer s).cleanupTimer = none ∧
    (clearTimer s).nextId = s.nextId := by
  obtain ⟨h1, h2, h3, h4⟩ := h
  cases hc : s.cleanupTimer with
  | none =>
    have hi : s.installed = [] := by rw [h1, hc]; rfl
    have he : clearTimer s = s := by
      unfold clearTimer
      rw [hc]
    rw [he]
    exact ⟨⟨h1, h2, h3, h4⟩, hi, hc, rfl⟩
  | some id =>
    have hi : s.installed = [id] := by rw [h1, hc]; rfl
    have her : s.installed.erase id = [] := by rw [hi]; simp
    have he : clearTimer s =
        { s with
          installed := s.installed.erase id
          cleanupTimer := none
          cancelled := id :: s.cancelled } := by
      unfold clearTimer
      rw [hc]
    rw [he]
    refine ⟨⟨?_, ?_, ?_, ?_⟩, her, rfl, rfl⟩
    · dsimp only
      rw [her]
      rfl
    · intro j hj
      exact Option.noConfusion hj
    · intro j hj
      dsimp only at hj
      rcases List.mem_cons.mp hj with hj | hj
      · exact hj ▸ h2 id hc
      · exact h3 j hj
    · intro j hj
      dsimp only
      rw [her]
      exact List.not_mem_nil j

theorem clockInv_installTimer (p : ClockProps) (s : ClockSys)
    (hi : s.installed = []) (hcanc : ∀ id ∈ s.cancelled, id < s.nextId) :
    ClockInv (installTimer p s) := by
  refine ⟨?_, ?_, ?_, ?_⟩
  · dsimp only [installTimer]
    rw [hi]
    rfl
  · intro id hid
    dsimp only [installTimer] at hid
    have : id = s.nextId := by
      exact (Option.some.inj hid).symm
    dsimp only [installTimer]
    omega
  · intro id hid
    dsimp only [installTimer] at hid ⊢
    have := hcanc id hid
    omega
  · intro id hid
    dsimp only [installTimer] at hid ⊢
    have hlt := hcanc id hid
    rw [hi]
    intro hmem
    rcases List.mem_cons.mp hmem with hh | hh
    · omega
    · exact List.not_mem_nil id hh

theorem clockInv_step (s : ClockSys) (e : ClockEvent) (h : ClockInv s) :
    ClockInv (step s e) := by
  cases e with
  | render p =>
    simp only [step]
    by_cases hd : s.deps = some (effectDeps p)
    · rw [if_pos hd]
      exact h
    · rw [if_neg hd]
      obtain ⟨hct, hinst, hcl, hnext⟩ := clockInv_clearTimer s h
      exact clockInv_installTimer p (clearTimer s) hinst hct.2.2.1
  | unmount =>
    obtain ⟨⟨c1, c2, c3, c4⟩, hinst, hcl, hnext⟩ := clockInv_clearTimer s h
    exact ⟨c1, c2, c3, c4⟩
  | fire id =>
    obtain ⟨h1, h2, h3, h4⟩ := h
    simp only [step]
    by_cases hm : id ∈ s.installed
    · rw [if_pos hm]
      exact ⟨h1, h2, h3, h4⟩
    · rw [if_neg hm]
      exact ⟨h1, h2, h3, h4⟩

theorem clockInv_foldl (events : List ClockEvent) :
    ∀ s : ClockSys, ClockInv s → ClockInv (events.foldl step s) := by
  induction events with
  | nil => intro s h; exact h
  | cons e es ih => intro s h; exact ih (step s e) (clockInv_step s e h)

theorem clockInv_runClock (events : List ClockEvent) :
    ClockInv (runClock events) := by
  refine clockInv_foldl events clockInit ⟨rfl, ?_, ?_, ?_⟩
  · intro id hid
    exact Option.noConfusion hid
  · intro id hid
    exact absurd hid (List.not_mem_nil id)
  · intro id hid
    exact absurd hid (List.not_mem_nil id)

/-- C5: in every reachable state of the clock lifecycle at most one
interval timer is installed; a render whose dependency array differs
from the last effect run (a new target instant or a new callback
identity, which the App component produces on every render, including
a theme change) cancels the captured timer before installing exactly
one new one; unmounting leaves no timer installed; and firing a
cancelled timer id leaves the state untouched, so a cancelled timer
never triggers a render or a callback again. -/
theorem clock_single_timer (events : List ClockEvent) :
    (runClock events).installed.length ≤ 1 ∧
    (∀ (p : ClockProps) (tid : Nat),
      (runClock events).cleanupTimer = some tid →
      (runClock events).deps ≠ some (effectDeps p) →
      tid ∈ (step (runClock events) (ClockEvent.render p)).cancelled ∧
      (step (runClock events) (ClockEvent.render p)).installed =
        [(runClock events).nextId]) ∧
    (step (runClock events) ClockEvent.unmount).installed = [] ∧
    (∀ id : Nat, id ∈ (runClock events).cancelled →
      step (runClock events) (ClockEvent.fire id) = runClock events) := by
  have hinv := clockInv_runClock events
  obtain ⟨h1, h2, h3, h4⟩ := hinv
  refine ⟨?_, ?_, ?_, ?_⟩
  · rw [h1]
    cases (runClock events).cleanupTimer <;> simp [Option.toList]
  · intro p tid hc hne
    obtain ⟨hct, hinst, hcl, hnext⟩ :=
      clockInv_clearTimer (runClock events) ⟨h1, h2, h3, h4⟩
    have hcanc : (clearTimer (runClock events)).cancelled =
        tid :: (runClock events).cancelled := by
      unfold clearTimer
      rw [hc]
    constructor
    · simp only [step]
      rw [if_neg hne]
      show tid ∈ (clearTimer (runClock events)).cancelled
      rw [hcanc]
      exact List.mem_cons_self tid _
    · simp only [step]
      rw [if_neg hne]
      show (clearTimer (runClock events)).nextId ::
          (clearTimer (runClock events)).installed =
        [(runClock events).nextId]
      rw [hinst, hnext]
  · obtain ⟨hct, hinst, hcl, hnext⟩ :=
      clockInv_clearTimer (runClock events) ⟨h1, h2, h3, h4⟩
    simp only [step]
    exact hinst
  · intro id hid
    simp only [step]
    rw [if_neg (h4 id hid)]

theorem clock_single_timer_witness :
    (runClock [ClockEvent.render ⟨25, 0, ThemeMode.mode24⟩]).cleanupTimer =
      some 0 ∧
    (runClock [ClockEvent.render ⟨25, 0, ThemeMode.mode24⟩]).deps ≠
      some (effectDeps ⟨25, 1, ThemeMode.elf⟩) ∧
    0 ∈ (step (runClock [ClockEvent.render ⟨25, 0, ThemeMode.mode24⟩])
        (ClockEvent.render ⟨25, 1, ThemeMode.elf⟩)).cancelled ∧
    (step (runClock [ClockEvent.render ⟨25, 0, ThemeMode.mode24⟩])
        (ClockEvent.render ⟨25, 1, ThemeMode.elf⟩)).installed =
      [(runClock [ClockEvent.render ⟨25, 0, ThemeMode.mode24⟩]).nextId] :=
  ⟨by decide, by decide,
    ((clock_single_timer [ClockEvent.render ⟨25, 0, ThemeMode.mode24⟩]).2.1
      ⟨25, 1, ThemeMode.elf⟩ 0 (by decide) (by decide)).1,
    ((clock_single_timer [ClockEvent.render ⟨25, 0, ThemeMode.mode24⟩]).2.1
      ⟨25, 1, ThemeMode.elf⟩ 0 (by decide) (by decide)).2⟩

/-- The instant, in milliseconds after installation, at which the
interval fires for the k-th time: setInterval with period 1000 fires
at 1000, 2000, 3000 and so on. -/
def intervalFireTime (k : Nat) : Nat := (k + 1) * tickPeriodMs

/-- C7: while installed, the interval fires exactly once per second:
consecutive fire instants are exactly one tick period apart, the
number of fires within the first t milliseconds is exactly t divided
by the period, each delivered fire on the installed timer invokes the
callback exactly once, and a fire on a cancelled timer changes
nothing, so the callback is never invoked after deactivation. -/
theorem onTick_once_per_second :
    (∀ k : Nat,
      intervalFireTime (k + 1) = intervalFireTime k + tickPeriodMs) ∧
    (∀ t N : Nat, t / tickPeriodMs ≤ N →
      ((Finset.range N).filter (fun k => intervalFireTime k ≤ t)).card =
        t / tickPeriodMs) ∧
    (∀ (events : List ClockEvent) (id : Nat),
      id ∈ (runClock events).installed →
      (step (runClock events) (ClockEvent.fire id)).callbackCount =
        (runClock events).callbackCount + 1) ∧
    (∀ (events : List ClockEvent) (id : Nat),
      id ∈ (runClock events).cancelled →
      step (runClock events) (ClockEvent.fire id) = runClock events) := by
  refine ⟨?_, ?_, ?_, ?_⟩
  · intro k
    simp only [intervalFireTime, tickPeriodMs]
    ring
  · intro t N h
    have hfe : (Finset.range N).filter (fun k => intervalFireTime k ≤ t) =
        Finset.range (t / tickPeriodMs) := by
      ext k
      simp only [Finset.mem_filter, Finset.mem_range]
      unfold intervalFireTime tickPeriodMs at *
      omega
    rw [hfe, Finset.card_range]
  · intro events id h
    simp only [step]
    rw [if_pos h]
  · intro events id hid
    have h4 := (clockInv_runClock events).2.2.2
    simp only [step]
    rw [if_neg (h4 id hid)]

theorem onTick_once_per_second_witness :
    3500 / tickPeriodMs ≤ 5 ∧
    ((Finset.range 5).filter (fun k => intervalFireTime k ≤ 3500)).card =
      3500 / tickPeriodMs ∧
    0 ∈ (runClock [ClockEvent.render ⟨30, 2, ThemeMode.mode24⟩]).installed ∧
    (step (runClock [ClockEvent.render ⟨30, 2, ThemeMode.mode24⟩])
        (ClockEvent.fire 0)).callbackCount =
      (runClock [ClockEvent.render ⟨30, 2, ThemeMode.mode24⟩]).callbackCount +
        1 :=
  ⟨by decide, onTick_once_per_second.2.1 3500 5 (by decide), by decide,
    onTick_once_per_second.2.2.1 [ClockEvent.render ⟨30, 2, ThemeMode.mode24⟩]
      0 (by decide)⟩

/-- A normalized local calendar instant, modelling the JavaScript Date
operations the App component uses: getFullYear, construction from
year, month index and day at local midnight, setFullYear, and
relational comparison. The month is zero indexed as in JavaScript. -/
structure JSDate where
  year : Int
  month : Nat
  day : Nat
  msOfDay : Nat
deriving DecidableEq, Repr

/-- A normalized calendar instant: month index below 12, day between
1 and 31, time of day below one day of milliseconds. -/
def JSDate.Valid (d : JSDate) : Prop :=
  d.month < 12 ∧ 1 ≤ d.day ∧ d.day ≤ 31 ∧ d.msOfDay < 86400000

/-- A numeric key that orders normalized calendar instants the same
way their epoch millisecond values do: later instants get strictly
larger keys, lexicographically in year, month, day and time of day.
JavaScript compares two Date objects by their epoch values. -/
def dateKey (d : JSDate) : Int :=
  ((d.year * 12 + (d.month : Int)) * 32 + (d.day : Int)) * 86400000 +
    (d.msOfDay : Int)

/-- Local midnight on December 25 of the given year, as built by
new Date(year, 11, 25) in the App component. -/
def christmasOf (year : Int) : JSDate :=
  { year := year, month := 11, day := 25, msOfDay := 0 }

/-- Source: the target selection effect of the App component:
  xmas = new Date(currentYear, 11, 25);
  if (now > xmas) xmas.setFullYear(currentYear + 1). -/
def setTargetChristmas (now : JSDate) : JSDate :=
  let xmas := christmasOf now.year
  if dateKey xmas < dateKey now then christmasOf (now.year + 1) else xmas

/-- C9: the countdown target is local midnight on December 25 of the
current year whenever the current instant is not after that midnight,
and December 25 of the next year otherwise; in particular at every
instant strictly after midnight on December 25 the target is Christmas
of the following year, not the ongoing Christmas Day. -/
theorem setTargetChristmas_next_christmas (now : JSDate)
    (hv : now.Valid) :
    (dateKey now ≤ dateKey (christmasOf now.year) →
      setTargetChristmas now = christmasOf now.year) ∧
    (dateKey (christmasOf now.year) < dateKey now →
      setTargetChristmas now = christmasOf (now.year + 1)) ∧
    (now.month = 11 → now.day = 25 → 0 < now.msOfDay →
      setTargetChristmas now = christmasOf (now.year + 1)) := by
  obtain ⟨hm, hd1, hd2, hms⟩ := hv
  refine ⟨?_, ?_, ?_⟩
  · intro h
    unfold setTargetChristmas
    rw [if_neg (by omega)]
  · intro h
    unfold setTargetChristmas
    rw [if_pos h]
  · intro h11 h25 h0
    unfold setTargetChristmas
    rw [if_pos ?_]
    unfold dateKey christmasOf
    rw [h11, h25]
    push_cast
    omega

theorem setTargetChristmas_next_christmas_witness :
    JSDate.Valid ⟨2024, 11, 25, 1⟩ ∧
    setTargetChristmas ⟨2024, 11, 25, 1⟩ = christmasOf 2025 ∧
    JSDate.Valid ⟨2024, 5, 10, 0⟩ ∧
    setTargetChristmas ⟨2024, 5, 10, 0⟩ = christmasOf 2024 :=
  ⟨⟨by decide, by decide, by decide, by decide⟩,
    (setTargetChristmas_next_christmas ⟨2024, 11, 25, 1⟩
      ⟨by decide, by decide, by decide, by decide⟩).2.2 rfl rfl (by decide),
    ⟨by decide, by decide, by decide, by decide⟩,
    (setTargetChristmas_next_christmas ⟨2024, 5, 10, 0⟩
      ⟨by decide, by decide, by decide, by decide⟩).1 (by decide)⟩

/-- Source: enum AppState in types.ts. -/
inductive AppState where
  | idle
  | processing
  | complete
  | error
deriving DecidableEq, Repr

/-- The App component state touched by handleGenerate: the phase, the
uploaded image data URL, the generated image data URL and the error
message, each nullable. Source: the useState hooks of App. -/
structure AppModel where
  appState : AppState
  uploadedImage : Option String
  generatedImage : Option String
  errorMessage : Option String
deriving DecidableEq, Repr

/-- Source: handleGenerate in the App component. The settled outcome
of the awaited generateCharacterImage call is passed in as an Except:
an ok value is the returned image, an error value is the message of
the rejection. The early return fires when no image is uploaded;
otherwise the state moves to processing with the error cleared, and
then either to complete with the generated image set, or to error
with the message stored, the JavaScript or-else falling back to the
fixed text when the message is empty. -/
def handleGenerate (s : AppModel) (result : Except String String) :
    AppModel :=
  match s.uploadedImage with
  | none => s
  | some _ =>
    match result with
    | Except.ok img =>
      { s with
        generatedImage := some img
        appState := AppState.complete
        errorMessage := none }
    | Except.error msg =>
      { s with
        errorMessage :=
          some (if msg = "" then "An unexpected error occurred." else msg)
        appState := AppState.error }

/-- C10: with an image uploaded, a rejected generation call leaves the
uploaded and the generated image unchanged, moves the app to the error
state and stores the message of the rejection; a fulfilled call stores
the returned value as the generated image and moves the app to the
complete state; the uploaded image is unchanged in both cases. -/
theorem handleGenerate_outcomes (s : AppModel) (img msg : String)
    (hup : s.uploadedImage.isSome = true) :
    ((handleGenerate s (Except.error msg)).uploadedImage =
        s.uploadedImage ∧
      (handleGenerate s (Except.error msg)).generatedImage =
        s.generatedImage ∧
      (handleGenerate s (Except.error msg)).appState = AppState.error ∧
      (msg ≠ "" →
        (handleGenerate s (Except.error msg)).errorMessage = some msg)) ∧
    ((handleGenerate s (Except.ok img)).generatedImage = some img ∧
      (handleGenerate s (Except.ok img)).appState = AppState.complete ∧
      (handleGenerate s (Except.ok img)).uploadedImage =
        s.uploadedImage) := by
  cases hu : s.uploadedImage with
  | none => rw [hu] at hup; exact absurd hup (by simp)
  | some u =>
    have herr : handleGenerate s (Except.error msg) =
        { s with
          errorMessage :=
            some (if msg = "" then "An unexpected error occurred." else msg)
          appState := AppState.error } := by
      unfold handleGenerate
      rw [hu]
    have hok : handleGenerate s (Except.ok img) =
        { s with
          generatedImage := some img
          appState := AppState.complete
          errorMessage := none } := by
      unfold handleGenerate
      rw [hu]
    rw [herr, hok]
    refine ⟨⟨hu, rfl, rfl, ?_⟩, rfl, rfl, hu⟩
    intro hne
    dsimp only
    rw [if_neg hne]

theorem handleGenerate_outcomes_witness :
    (AppModel.mk AppState.processing (some "photo") none none
        ).uploadedImage.isSome = true ∧
    (handleGenerate
        (AppModel.mk AppState.processing (some "photo") none none)
        (Except.error "Access Denied: API Key invalid or expired."
          )).appState = AppState.error ∧
    (handleGenerate
        (AppModel.mk AppState.processing (some "photo") none none)
        (Except.ok "result")).appState = AppState.complete :=
  ⟨by decide,
    ((handleGenerate_outcomes
        (AppModel.mk AppState.processing (some "photo") none none)
        "result" "Access Denied: API Key invalid or expired."
        (by decide)).1).2.2.1,
    ((handleGenerate_outcomes
        (AppModel.mk AppState.processing (some "photo") none none)
        "result" "Access Denied: API Key invalid or expired."
        (by decide)).2).2.1⟩

end Xmas24
